import Mathlib

/-!
Verification of the revision-workflow engine of the LegalServices repository.

The embedding follows the CaseStrategy variant of the source
(`project_designer_v1.py` for the stage functions and graph wiring,
`gui_v1.py` for the session controller); the CourseDesigner variant
(`course_designer_rag.py`, `simplified_gui_rag.py`) is line-for-line
identical up to the caller-facing node names (`drafter` is named
`course designer` there, `finalizer` is named `reflect`) and the
caller-facing field key (`proposal` there is `design`).

LangGraph state is a Python dict with string keys; values are strings,
ints, lists of retrieved documents, or `None`.  We model it as an
association list of `String × Value` with unique keys maintained by
`sset`.  The `count` field of `AgentState` is declared
`Annotated[int, operator.add]`, so LangGraph applies every write to it
through integer addition (a reducer channel); all other fields are
last-value channels.  Stage functions and the external generation call
are modelled with the call result as an explicit parameter: `some s` is
a generation that returned text `s`, `none` is a generation call that
raised.
-/

/-- A retrieved reference document, as produced by
`retrieve_relevant_documents`: content plus source attribution. -/
structure Doc where
  content : String
  source : String
deriving DecidableEq, Repr

/-- A Python value stored in a workflow-state dict: a string, an int,
a list of retrieved documents, or `None`. -/
inductive Value where
  | s : String → Value
  | i : Int → Value
  | docs : List Doc → Value
  | null : Value
deriving DecidableEq, Repr

/-- A workflow-state dict: association list from field name to value.
All operations below keep keys unique. -/
abbrev SDict := List (String × Value)

/-- Dict lookup, `d.get(k)`: first entry with the given key. -/
def sget (d : SDict) (k : String) : Option Value :=
  match d with
  | [] => none
  | (k', v) :: rest => if k' = k then some v else sget rest k

/-- Dict lookup with default, `d.get(k, dflt)`. -/
def sgetD (d : SDict) (k : String) (dflt : Value) : Value :=
  (sget d k).getD dflt

/-- Dict update `d[k] = v`: replaces the entry in place, or appends. -/
def sset (d : SDict) (k : String) (v : Value) : SDict :=
  match d with
  | [] => [(k, v)]
  | (k', v') :: rest => if k' = k then (k, v) :: rest else (k', v') :: sset rest k v

/-- Integer read used where the Python code computes with a field
arithmetically (`state.get(k, dflt) + 1`, comparisons): absent keys give
the default, an int gives its value, and any other stored value raises
a `TypeError` (`none` result). -/
def sgetInt (d : SDict) (k : String) (dflt : Int) : Option Int :=
  match sget d k with
  | Option.none => some dflt
  | some (Value.i n) => some n
  | some _ => none

/-- The `should_continue` routing predicate of `project_designer_v1.py`:
after `drafter`, end the run (`none`) when `revision_number` exceeds
`max_revisions`, otherwise go to `finalizer`.  Any exception inside the
predicate (for example a comparison on a non-int stored value) is caught
and defaults to ending the process. -/
def should_continue (st : SDict) : Option String :=
  match sgetInt st "revision_number" 0, sgetInt st "max_revisions" 2 with
  | some r, some m => if r > m then none else some "finalizer"
  | _, _ => none

/-- Graph wiring of `project_designer_v1.py`: `planner → drafter`
unconditionally, `drafter` routed by `should_continue`, and
`finalizer → drafter` unconditionally. -/
def nextAfter (node : String) (st : SDict) : Option String :=
  if node = "planner" then some "drafter"
  else if node = "drafter" then should_continue st
  else if node = "finalizer" then some "drafter"
  else none

/-- The update dict returned by `plan_node`.  The generation call is not
wrapped in try/except there, so a raising call (`gen = none`) propagates
(`none` result).  `retrieved_docs` is the retrieval result for the task;
retrieval failures already degrade to `[]` inside
`retrieve_relevant_documents`. -/
def plan_node (gen : Option String) (docs : List Doc) (st : SDict) : Option SDict :=
  gen.map fun resp =>
    [("plan", Value.s resp),
     ("lnode", Value.s "planner"),
     ("draft", sgetD st "draft" (Value.s "no draft yet")),
     ("critique", sgetD st "critique" (Value.s "no critique yet")),
     ("revision_number", sgetD st "revision_number" (Value.i 0)),
     ("max_revisions", sgetD st "max_revisions" (Value.i 2)),
     ("count", Value.i 1),
     ("task", sgetD st "task" (Value.s "")),
     ("retrieved_docs", sgetD st "retrieved_docs" (Value.docs docs))]

/-- The update dict returned by `draft_node`.  The body is wrapped in
try/except: a raising generation call (`gen = none`) falls to the except
branch, which still returns a complete dict with the fixed placeholder
draft text and the same `revision_number`/`count` arithmetic as the
success branch.  The arithmetic itself needs int-valued fields; on any
other stored value both branches raise, so the node raises (`none`). -/
def draft_node (gen : Option String) (st : SDict) : Option SDict :=
  match sgetInt st "revision_number" 0, sgetInt st "count" 0 with
  | some r, some c =>
    match gen with
    | some resp => some
      [("draft", Value.s resp),
       ("plan", sgetD st "plan" (Value.s "")),
       ("critique", sgetD st "critique" (Value.s "no critique yet")),
       ("task", sgetD st "task" (Value.s "")),
       ("revision_number", Value.i (r + 1)),
       ("max_revisions", sgetD st "max_revisions" (Value.i 2)),
       ("lnode", Value.s "drafter"),
       ("count", Value.i (c + 1)),
       ("retrieved_docs", sgetD st "retrieved_docs" (Value.docs []))]
    | none => some
      [("draft", Value.s "Error occurred during content generation."),
       ("plan", sgetD st "plan" (Value.s "")),
       ("critique", sgetD st "critique" (Value.s "")),
       ("task", sgetD st "task" (Value.s "")),
       ("revision_number", Value.i (r + 1)),
       ("max_revisions", sgetD st "max_revisions" (Value.i 2)),
       ("lnode", Value.s "drafter"),
       ("count", Value.i (c + 1)),
       ("retrieved_docs", sgetD st "retrieved_docs" (Value.docs []))]
  | _, _ => none

/-- The update dict returned by `finalize_node`.  Success and except
branches differ only in the critique text; `revision_number` is passed
through unchanged (no arithmetic), `count` needs an int. -/
def finalize_node (gen : Option String) (st : SDict) : Option SDict :=
  match sgetInt st "count" 0 with
  | some c => some
    [("critique", Value.s (gen.getD "Error occurred during finalization.")),
     ("draft", sgetD st "draft" (Value.s "")),
     ("plan", sgetD st "plan" (Value.s "")),
     ("task", sgetD st "task" (Value.s "")),
     ("revision_number", sgetD st "revision_number" (Value.i 0)),
     ("max_revisions", sgetD st "max_revisions" (Value.i 2)),
     ("lnode", Value.s "finalizer"),
     ("count", Value.i (c + 1)),
     ("retrieved_docs", sgetD st "retrieved_docs" (Value.docs []))]
  | none => none

/-- Dispatch to the stage function registered for a node name. -/
def runNode (gen : Option String) (docs : List Doc) (node : String) (st : SDict) :
    Option SDict :=
  if node = "planner" then plan_node gen docs st
  else if node = "drafter" then draft_node gen st
  else if node = "finalizer" then finalize_node gen st
  else none

/-- Application of an update dict to the channel state, as LangGraph does
for `AgentState`: the `count` channel is `Annotated[int, operator.add]`,
so a write to it is added to the current value (channel default 0 when
unset); every other channel is last-value and is overwritten.  Adding a
non-int raises (`none` result). -/
def applyUpd : SDict → SDict → Option SDict
  | st, [] => some st
  | st, (k, v) :: rest =>
    if k = "count" then
      match sget st "count", v with
      | some (Value.i a), Value.i b => applyUpd (sset st "count" (Value.i (a + b))) rest
      | Option.none, Value.i b => applyUpd (sset st "count" (Value.i b)) rest
      | _, _ => none
    else applyUpd (sset st k v) rest

/-- Combined effect of one stage on the channel state: run the node,
then apply its update dict through the channels. -/
def stageResult (node : String) (gen : Option String) (docs : List Doc)
    (st : SDict) : Option SDict :=
  (runNode gen docs node st).bind (applyUpd st)

/-- One checkpoint of a thread: an id (modelling the `thread_ts`
assigned by the checkpointer), the metadata step index, the channel
values, and the next node computed by the routing. -/
structure Checkpoint where
  cid : Nat
  step : Int
  vals : SDict
  next : Option String
deriving DecidableEq, Repr

/-- The checkpoint log of one thread, newest first (the order
`get_state_history` yields), plus the id counter for fresh
checkpoints. -/
structure GThread where
  hist : List Checkpoint
  nextCid : Nat
deriving DecidableEq, Repr

/-- The initial input dict built by `run_agent` when `start` is set:
the literal config of `gui_v1.py` (task from the topic box,
`max_revisions` hardcoded to 2). -/
def initConfig (topic : String) : SDict :=
  [("task", Value.s topic),
   ("max_revisions", Value.i 2),
   ("revision_number", Value.i 0),
   ("lnode", Value.s ""),
   ("plan", Value.s "no plan"),
   ("draft", Value.s "no draft"),
   ("critique", Value.s "no critique"),
   ("count", Value.i 0),
   ("retrieved_docs", Value.docs [])]

/-- A fresh thread: the input checkpoint (metadata step 0, excluded from
user-facing history) holding the initial config, with entry point
`planner`. -/
def startThread (topic : String) : GThread :=
  { hist := [⟨0, 0, initConfig topic, some "planner"⟩], nextCid := 1 }

/-- One `graph.invoke` on a thread.  The graph is compiled with
`interrupt_after` on all three nodes, so an invoke executes exactly the
one pending node, writes a checkpoint, and interrupts.  The result is
`none` when nothing runs: the thread is terminal (an invoke on a
finished thread executes no node and writes nothing) or the node raised
(the engine-level error path: the exception propagates to the caller of
`invoke` and no checkpoint is written). -/
def invokeStep (gen : Option String) (docs : List Doc) (t : GThread) :
    Option (GThread × String) :=
  match t.hist with
  | [] => none
  | cp :: _ =>
    match cp.next with
    | Option.none => none
    | some node =>
      match runNode gen docs node cp.vals with
      | Option.none => none
      | some upd =>
        match applyUpd cp.vals upd with
        | Option.none => none
        | some v2 =>
          some ({ hist := ⟨t.nextCid, cp.step + 1, v2, nextAfter node v2⟩ :: t.hist,
                  nextCid := t.nextCid + 1 }, node)

/-- Python str() coercion applied to the `lnode` field in
`get_disp_state` (`str(lnode) if lnode is not None else ""`).  In every
state this system writes, `lnode` is a string; a list-valued `lnode` is
unreachable and is rendered by a fixed marker. -/
def pyStrField (v : Option Value) : String :=
  match v with
  | Option.none => ""
  | some Value.null => ""
  | some (Value.s s) => s
  | some (Value.i n) => toString n
  | some (Value.docs _) => "[list]"

/-- Value of a decimal digit character, if it is one. -/
def charDigit? (c : Char) : Option Nat :=
  if 48 ≤ c.toNat ∧ c.toNat ≤ 57 then some (c.toNat - 48) else none

/-- Accumulating decimal parse of a character list; any non-digit makes
the whole parse fail. -/
def digitsToNatAux : Option Nat → List Char → Option Nat
  | acc, [] => acc
  | acc, c :: cs =>
    match acc, charDigit? c with
    | some n, some d => digitsToNatAux (some (n * 10 + d)) cs
    | _, _ => none

/-- Decimal parse of a nonempty character list. -/
def digitsToNat? : List Char → Option Nat
  | [] => none
  | cs => digitsToNatAux (some 0) cs

/-- Python int() applied to a string: an optional minus sign followed
by decimal digits.  (Python additionally strips whitespace and accepts
a plus sign and underscore separators; such strings do not occur in
this system.) -/
def strToInt? (s : String) : Option Int :=
  match s.data with
  | [] => none
  | c :: cs =>
    if c = Char.ofNat 45 then (digitsToNat? cs).map (fun n => -(n : Int))
    else (digitsToNat? (c :: cs)).map (fun n => (n : Int))

/-- Python int() coercion applied to `count` and `revision_number` in
`get_disp_state`: absent gives the default 0, `None` gives 0 via the
is-not-None guard, an int gives its value, a string is parsed
(`ValueError` on a non-numeric string is caught, giving 0), and a list
raises `TypeError`, caught, giving 0. -/
def pyIntCoerce (v : Option Value) : Int :=
  match v with
  | Option.none => 0
  | some Value.null => 0
  | some (Value.i n) => n
  | some (Value.s s) => (strToInt? s).getD 0
  | some (Value.docs _) => 0

/-- The display state returned by `get_disp_state`: coerced
`lnode`/`revision_number`/`count` of the latest checkpoint plus the raw
next node of the snapshot (the code renders the next-node tuple with
str() only for display). -/
structure DispState where
  lnode : String
  next : Option String
  rev : Int
  acount : Int
deriving DecidableEq, Repr

/-- Model of `get_disp_state` on a thread: read the latest checkpoint
and coerce its fields; a thread with no checkpoint yields the
defaults. -/
def get_disp_state (t : GThread) : DispState :=
  match t.hist with
  | [] => { lnode := "", next := none, rev := 0, acount := 0 }
  | cp :: _ =>
    { lnode := pyStrField (sget cp.vals "lnode"),
      next := cp.next,
      rev := pyIntCoerce (sget cp.vals "revision_number"),
      acount := pyIntCoerce (sget cp.vals "count") }

/-- Truth value of the `if not nnode` halt test in `run_agent`.
`get_disp_state` renders `snapshot.next` with str(): a tuple renders to
a nonempty string even when the tuple is empty (str of the empty tuple
is the two-character string of brackets), so the test is never taken and
the loop never halts through it. -/
def nnodeFalsy (nx : Option String) : Bool :=
  match nx with
  | some _ => false
  | none => false

/-- The `run_agent` generator loop of `gui_v1.py`, returning the final
thread and the list of nodes executed, in order.  Fuel is the remaining
iteration budget (`max_iterations = 10`, shared per thread across start
and continue calls).  Each iteration invokes the graph once; on an
invoke that executes nothing (terminal thread: the loop keeps yielding
the unchanged state until the budget runs out, executing no node) or
that raises (the loop yields an error tuple and returns), no further
node runs and the thread is unchanged, which the model folds into an
immediate stop.  After a step the loop halts when the rendered next
node is falsy (never, see `nnodeFalsy`) or when the displayed last node
is in `stop_after`. -/
def run_agent_loop (stopAfter : List String) (gens : Nat → Option String)
    (docs : List Doc) : Nat → GThread → GThread × List String
  | 0, t => (t, [])
  | n + 1, t =>
    match invokeStep (gens n) docs t with
    | none => (t, [])
    | some (t2, nd) =>
      if nnodeFalsy (get_disp_state t2).next then (t2, [nd])
      else if (get_disp_state t2).lnode ∈ stopAfter then (t2, [nd])
      else
        let r := run_agent_loop stopAfter gens docs n t2
        (r.1, nd :: r.2)

/-- LangGraph `update_state(thread, values, as_node)`: apply the given
values as writes coming from `as_node` (so the `count` reducer adds),
append a checkpoint with the step index advanced, and compute the next
node from the edges out of `as_node`.  An unknown node name raises
(`none`), as does a write of a non-int to `count`; the operation needs
an existing checkpoint (every modelled caller guarantees one). -/
def update_state (t : GThread) (vals : SDict) (asNode : String) : Option GThread :=
  if asNode = "planner" ∨ asNode = "drafter" ∨ asNode = "finalizer" then
    match t.hist with
    | [] => none
    | cp :: _ =>
      (applyUpd cp.vals vals).map fun v2 =>
        { hist := ⟨t.nextCid, cp.step + 1, v2, nextAfter asNode v2⟩ :: t.hist,
          nextCid := t.nextCid + 1 }
  else none

/-- Model of `find_config`: scan the full history (newest first) for the
checkpoint with the given id. -/
def find_config (t : GThread) (ts : Nat) : Option Checkpoint :=
  t.hist.find? fun cp => cp.cid = ts

/-- The value returned by `copy_state` to the GUI: either the sentinel
tuple of empty strings and zeros (returned on empty input and on a
lookup miss) or the summary of the newly written checkpoint. -/
inductive CopyOut where
  | sentinel
  | restored (lnode : Value) (next : Option String) (ts : Nat) (rev cnt : Value)
deriving DecidableEq, Repr

/-- Model of `copy_state` (RestoreCheckpoint): empty selection or an id
absent from history returns the thread unchanged with the sentinel;
otherwise the values of the found checkpoint are written back through
`update_state` with the stored `lnode` as the node of record, and the
summary of the new latest checkpoint is returned.  A stored `lnode`
that is absent or not a string makes `update_state` raise (an invalid
node), which propagates (`none`). -/
def copy_state (t : GThread) (histSel : Option Nat) :
    Option (GThread × CopyOut) :=
  match histSel with
  | Option.none => some (t, CopyOut.sentinel)
  | some ts =>
    match find_config t ts with
    | Option.none => some (t, CopyOut.sentinel)
    | some cp =>
      match sget cp.vals "lnode" with
      | some (Value.s ln) =>
        match update_state t cp.vals ln with
        | Option.none => none
        | some t2 =>
          match t2.hist with
          | [] => none
          | ncp :: _ =>
            some (t2, CopyOut.restored (sgetD ncp.vals "lnode" (Value.s ""))
              ncp.next ncp.cid
              (sgetD ncp.vals "revision_number" (Value.i 0))
              (sgetD ncp.vals "count" (Value.i 0)))
      | _ => none

/-- ListHistory (`update_hist_pd`): the checkpoints whose metadata step
is at least 1, newest first (the step-0 input checkpoint is excluded
from user-facing history). -/
def listHistory (t : GThread) : List Checkpoint :=
  t.hist.filter fun cp => 1 ≤ cp.step

/-- Caller-facing to internal field key map used on the read side
(`get_state` of `gui_v1.py`). -/
def read_key_map (k : String) : String :=
  if k = "proposal" then "draft"
  else if k = "materials" then "retrieved_docs"
  else k

/-- Caller-facing to internal field key map used on the write side
(`modify_state` of `gui_v1.py`). -/
def write_key_map (k : String) : String :=
  if k = "proposal" then "draft"
  else if k = "draft" then "draft"
  else if k = "materials" then "retrieved_docs"
  else k

/-- Caller-facing to internal node name map of `modify_state` in
`gui_v1.py`: its entries are all identity, and unknown names pass
through. -/
def write_node_map (n : String) : String := n

/-- Rendering of the retrieved-documents list to the numbered,
source-headed text block shown by `get_state` for the materials key. -/
def formatDocs (ds : List Doc) : String :=
  if ds.isEmpty then "No reference materials were retrieved for this proposal topic."
  else String.join ((ds.enum.map fun p =>
    "Document " ++ toString (p.1 + 1) ++ " - Source: " ++ p.2.source ++ "\n"
      ++ p.2.content ++ "\n\n"))

/-- ReadField (`get_state` of `gui_v1.py`), value part: map the key,
look it up in the latest checkpoint, render the materials list to text,
and return `none` when there is no checkpoint or the key is absent (the
GUI shows a not-found label in that case, it does not raise). -/
def get_state_value (t : GThread) (key : String) : Option Value :=
  match t.hist with
  | [] => none
  | cp :: _ =>
    match sget cp.vals (read_key_map key) with
    | Option.none => none
    | some v =>
      if read_key_map key = "retrieved_docs" then
        match v with
        | Value.docs ds => some (Value.s (formatDocs ds))
        | _ => some (Value.s "Retrieved documents are not in the expected format.")
      else some v

/-- The required-keys list of `modify_state`. -/
def required_keys : List String :=
  ["task", "plan", "draft", "critique", "revision_number", "max_revisions",
   "count", "lnode", "retrieved_docs"]

/-- One backfill pass of `modify_state`: keep an already-present key,
otherwise copy it from the current state, otherwise install the
documented default (empty list for the documents, empty string
elsewhere). -/
def backfillKey (cur acc : SDict) (rk : String) : SDict :=
  match sget acc rk with
  | some _ => acc
  | Option.none =>
    match sget cur rk with
    | some v => sset acc rk v
    | Option.none =>
      sset acc rk (if rk = "retrieved_docs" then Value.docs [] else Value.s "")

/-- OverwriteField (`modify_state` of `gui_v1.py`): copy the latest
values, replace the mapped key, backfill any missing required key, and
append through `update_state` tagged with the mapped node.  Every error
path is caught and logged, leaving the thread unchanged: no checkpoint
yet, or a failing `update_state`. -/
def modify_state (t : GThread) (key asnode : String) (newVal : Value) : GThread :=
  match t.hist with
  | [] => t
  | cp :: _ =>
    let updated := sset cp.vals (write_key_map key) newVal
    let filled := required_keys.foldl (backfillKey cp.vals) updated
    match update_state t filled (write_node_map asnode) with
    | Option.none => t
    | some t2 => t2

/-- The session controller state relevant to thread switching: the list
of created thread ids and the current-thread pointer (`self.threads`
and `self.thread_id` of the GUI class, initialised to `[]` and -1). -/
structure Controller where
  threads : List Int
  thread_id : Int
deriving DecidableEq, Repr

/-- SwitchThread (`switch_thread` of `gui_v1.py`): set the pointer to
the given id.  The source performs no validation of any kind. -/
def switch_thread (c : Controller) (newId : Int) : Controller :=
  { c with thread_id := newId }

/-- Boolean test for a stored numeric field being malformed in the sense
of the MalformedState taxonomy: absent, `None`, a list, or a string that
does not parse as an int. -/
def malformedNum (v : Option Value) : Bool :=
  match v with
  | Option.none => true
  | some Value.null => true
  | some (Value.docs _) => true
  | some (Value.s s) => (strToInt? s).isNone
  | some (Value.i _) => false

/-- Values of the latest checkpoint of a thread (empty dict when the
thread has none). -/
def latestVals (t : GThread) : SDict :=
  match t.hist with
  | [] => []
  | cp :: _ => cp.vals

/-- A concrete generation oracle whose every call succeeds with the
text x, used for concrete runs in counterexamples and witnesses. -/
def gensX : Nat → Option String := fun _ => some "x"

/-- Concrete thread: fresh run advanced by one step (the planner). -/
def cexT1 : GThread := (run_agent_loop [] gensX [] 1 (startThread "t")).1

/-- Concrete thread: fresh run advanced by two steps (planner then
drafter). -/
def cexT2 : GThread := (run_agent_loop [] gensX [] 2 (startThread "t")).1

/-- First value in composition order: the value an in-order sequence of
channel writes leaves for a key is the first (and, with unique keys,
only) occurrence in the update dict, falling back to the prior state. -/
def oFirst (a b : Option Value) : Option Value :=
  match a with
  | some v => some v
  | none => b

/-- The input checkpoint of the concrete fresh thread. -/
def cexCp0 : Checkpoint := ⟨0, 0, initConfig "t", some "planner"⟩

/-- The checkpoint written by the planner step of the concrete run. -/
def cexCp1 : Checkpoint :=
  ⟨1, 1,
   [("task", Value.s "t"), ("max_revisions", Value.i 2), ("revision_number", Value.i 0),
    ("lnode", Value.s "planner"), ("plan", Value.s "x"), ("draft", Value.s "no draft"),
    ("critique", Value.s "no critique"), ("count", Value.i 1),
    ("retrieved_docs", Value.docs [])],
   some "drafter"⟩

/-- The checkpoint written by the drafter step of the concrete run. -/
def cexCp2 : Checkpoint :=
  ⟨2, 2,
   [("task", Value.s "t"), ("max_revisions", Value.i 2), ("revision_number", Value.i 1),
    ("lnode", Value.s "drafter"), ("plan", Value.s "x"), ("draft", Value.s "x"),
    ("critique", Value.s "no critique"), ("count", Value.i 3),
    ("retrieved_docs", Value.docs [])],
   some "finalizer"⟩

/-- The state left by a drafter execution on the fresh initial
config. -/
def cexDraftState : SDict :=
  [("task", Value.s "t"), ("max_revisions", Value.i 2), ("revision_number", Value.i 1),
   ("lnode", Value.s "drafter"), ("plan", Value.s "no plan"), ("draft", Value.s "x"),
   ("critique", Value.s "no critique"), ("count", Value.i 1),
   ("retrieved_docs", Value.docs [])]

/-- A concrete thread whose latest checkpoint stores a non-numeric
placeholder for the revision number and a list where the count should
be. -/
def cexBad : GThread :=
  { hist := [⟨5, 3, [("revision_number", Value.s "pending"), ("count", Value.docs []),
      ("lnode", Value.s "drafter")], some "finalizer"⟩], nextCid := 6 }

/-- Characterization of lookup after update: updating key k and looking
up key m finds the new value exactly when the keys agree. -/
theorem sget_sset (d : SDict) (k m : String) (v : Value) :
    sget (sset d k v) m = if k = m then some v else sget d m := by
  induction d with
  | nil => rfl
  | cons hd tl ih =>
    obtain ⟨a, b⟩ := hd
    by_cases h1 : a = k
    · subst h1
      by_cases h2 : a = m <;> simp [sset, sget, h2]
    · by_cases h2 : a = m
      · subst h2
        have hka : ¬ k = a := fun h => h1 h.symm
        simp [sset, sget, h1, hka]
      · simp [sset, sget, h1, h2, ih]

set_option maxHeartbeats 4000000 in
/-- C1: a thread started fresh (the initial config fixes maxRevisions
at 2) and auto-advanced with an empty interruption set executes nodes
in exactly the order planner, drafter, finalizer, drafter, finalizer,
drafter — six steps; after the sixth step the routing predicate has
returned the terminal (the revision number has reached 3, exceeding 2)
and a further invoke executes no node. -/
theorem routing_visits_six_nodes (topic : String) (gens : Nat → String)
    (docs : List Doc) :
    (run_agent_loop [] (fun n => some (gens n)) docs 10 (startThread topic)).2
        = ["planner", "drafter", "finalizer", "drafter", "finalizer", "drafter"] ∧
    (get_disp_state
        (run_agent_loop [] (fun n => some (gens n)) docs 10 (startThread topic)).1).next
        = none ∧
    (get_disp_state
        (run_agent_loop [] (fun n => some (gens n)) docs 10 (startThread topic)).1).rev
        = 3 ∧
    ∀ g ds, invokeStep (some g) ds
        (run_agent_loop [] (fun n => some (gens n)) docs 10 (startThread topic)).1 = none := by
  simp [run_agent_loop, invokeStep, startThread, initConfig, runNode, plan_node,
    draft_node, finalize_node, sgetD, sget, applyUpd, sset, nextAfter,
    should_continue, sgetInt, get_disp_state, pyStrField, pyIntCoerce, nnodeFalsy]

set_option maxHeartbeats 4000000 in
/-- C4: with interruption set containing exactly the planner, a fresh
run halts immediately after the planner step even though drafter is the
computed next node, and a subsequent continue call on the same thread
executes drafter as its first step. -/
theorem interrupt_after_planner (topic : String) (gens gens2 : Nat → String)
    (docs docs2 : List Doc) :
    (run_agent_loop ["planner"] (fun n => some (gens n)) docs 10 (startThread topic)).2
        = ["planner"] ∧
    (get_disp_state
        (run_agent_loop ["planner"] (fun n => some (gens n)) docs 10 (startThread topic)).1).next
        = some "drafter" ∧
    (run_agent_loop ["planner"] (fun n => some (gens2 n)) docs2 9
        (run_agent_loop ["planner"] (fun n => some (gens n)) docs 10 (startThread topic)).1).2.head?
        = some "drafter" := by
  simp [run_agent_loop, invokeStep, startThread, initConfig, runNode, plan_node,
    draft_node, finalize_node, sgetD, sget, applyUpd, sset, nextAfter,
    should_continue, sgetInt, get_disp_state, pyStrField, pyIntCoerce, nnodeFalsy]

/-- C7 counterexample: switching to thread id 99 on a controller that
only ever created thread 0 does not fail and moves the current-thread
pointer to 99, refuting the claim that the pointer is left unchanged
with an InvalidThread failure. -/
theorem switch_thread_cex :
    (switch_thread ⟨[0], 0⟩ 99).thread_id = 99 ∧
    ((99 : Int) ∈ ([0] : List Int) → False) ∧
    (switch_thread ⟨[0], 0⟩ 99).threads = [0] :=
  ⟨rfl, by decide, rfl⟩

/-- C7 amended: switch_thread sets the current-thread pointer to the
given id unconditionally, created or not, and never fails; the thread
registry is untouched. -/
theorem switch_thread_unconditional (c : Controller) (newId : Int) :
    (switch_thread c newId).thread_id = newId ∧
    (switch_thread c newId).threads = c.threads :=
  ⟨rfl, rfl⟩

/-- C6 counterexample: restoring a checkpoint id that occurs nowhere in
the history of a concrete two-step thread silently does nothing — the
thread is unchanged and the same sentinel tuple is returned as for the
designed empty-selection no-op path — refuting the claim of an explicit
NotFound failure. -/
theorem restore_notfound_cex :
    copy_state cexT2 (some 999) = some (cexT2, CopyOut.sentinel) ∧
    copy_state cexT2 none = some (cexT2, CopyOut.sentinel) :=
  ⟨rfl, rfl⟩

/-- C6 amended: for every checkpoint id absent from the full history of
a thread, copy_state leaves the thread unchanged (appends nothing) and
returns the sentinel tuple of empty strings and zeros; it raises no
error and is indistinguishable from the empty-selection no-op. -/
theorem restore_notfound_silent (t : GThread) (ts : Nat)
    (h : find_config t ts = none) :
    copy_state t (some ts) = some (t, CopyOut.sentinel) := by
  simp [copy_state, h]

/-- Witness for restore_notfound_silent at a concrete thread and the
absent id 999. -/
theorem restore_notfound_silent_witness :
    copy_state cexT2 (some 999) = some (cexT2, CopyOut.sentinel) :=
  restore_notfound_silent cexT2 999 rfl

/-- C5 counterexample: on the concrete two-step thread, restoring the
planner checkpoint (stored count 1) appends a checkpoint whose count is
4 (the latest count 3 plus the restored count 1, through the
operator.add channel), so the appended WorkflowState does not equal the
restored one. -/
theorem restore_copy_cex :
    (copy_state cexT2 (some 1)).map
        (fun p => (p.1.hist.length, sget (latestVals p.1) "count"))
        = some (4, some (Value.i 4)) ∧
    (find_config cexT2 1).map (fun cp => sget cp.vals "count")
        = some (some (Value.i 1)) ∧
    (some (Value.i 4) : Option Value) ≠ some (Value.i 1) :=
  ⟨rfl, rfl, by decide⟩

/-- C2 counterexample: on a fresh concrete run, count is 1 after the
first step but 3 after the second (the drafter wrote count plus one
into an adding channel), so the per-step increase is 2, not 1. -/
theorem count_increment_cex :
    sget (latestVals cexT1) "count" = some (Value.i 1) ∧
    sget (latestVals cexT2) "count" = some (Value.i 3) ∧
    (run_agent_loop [] gensX [] 2 (startThread "t")).2.length = 2 ∧
    Value.i 3 ≠ Value.i (1 + 1) :=
  ⟨rfl, rfl, rfl, by decide⟩

/-- C8 counterexample: on the concrete one-step thread (latest count 1),
overwriting the plan field as the planner makes ReadField return the new
plan, but the appended checkpoint stores count 2 — the adding channel
doubled it — so not every non-plan field is unchanged. -/
theorem overwrite_plan_cex :
    get_state_value (modify_state cexT1 "plan" "planner" (Value.s "X")) "plan"
        = some (Value.s "X") ∧
    sget (latestVals (modify_state cexT1 "plan" "planner" (Value.s "X"))) "count"
        = some (Value.i 2) ∧
    sget (latestVals cexT1) "count" = some (Value.i 1) ∧
    (some (Value.i 2) : Option Value) ≠ some (Value.i 1) :=
  ⟨rfl, rfl, rfl, by decide⟩

/-- Composing a value with itself through oFirst is the identity. -/
theorem oFirst_self (a : Option Value) : oFirst a a = a := by
  cases a <;> rfl

/-- Lookup of a key that is not among the keys of a dict fails. -/
theorem sget_eq_none_of_not_mem (d : SDict) (k : String)
    (h : k ∉ d.map Prod.fst) : sget d k = none := by
  induction d with
  | nil => rfl
  | cons hd tl ih =>
    obtain ⟨a, b⟩ := hd
    simp only [List.map_cons, List.mem_cons] at h
    push_neg at h
    have hak : ¬ a = k := fun hh => h.1 hh.symm
    simp [sget, hak, ih h.2]

/-- A successful lookup witnesses key membership. -/
theorem mem_keys_of_sget_some (d : SDict) (k : String) (v : Value)
    (h : sget d k = some v) : k ∈ d.map Prod.fst := by
  induction d with
  | nil => simp [sget] at h
  | cons hd tl ih =>
    obtain ⟨a, b⟩ := hd
    by_cases hak : a = k
    · subst hak
      simp
    · simp only [sget, if_neg hak] at h
      simp [ih h]

/-- Updating a key that is already present leaves the key list of the
dict unchanged. -/
theorem keys_sset_of_mem (d : SDict) (k : String) (v : Value)
    (h : k ∈ d.map Prod.fst) :
    (sset d k v).map Prod.fst = d.map Prod.fst := by
  induction d with
  | nil => simp at h
  | cons hd tl ih =>
    obtain ⟨a, b⟩ := hd
    by_cases hak : a = k
    · subst hak
      simp [sset]
    · rw [List.map_cons, List.mem_cons] at h
      have hk : k ∈ tl.map Prod.fst := by
        rcases h with h1 | h1
        · exact absurd h1.symm hak
        · exact h1
      simp [sset, hak, ih hk]

/-- Channel application of an update dict that does not write the count
channel: it always succeeds, leaves count untouched, and gives every
other key the updated value when the dict has one, the prior value
otherwise. -/
theorem applyUpd_nocount : ∀ (upd st : SDict),
    (upd.map Prod.fst).Nodup → sget upd "count" = none →
    ∃ v2, applyUpd st upd = some v2 ∧
      sget v2 "count" = sget st "count" ∧
      ∀ k, k ≠ "count" → sget v2 k = oFirst (sget upd k) (sget st k)
  | [], st, _, _ => ⟨st, rfl, rfl, fun k _ => by simp [sget, oFirst]⟩
  | (k0, v0) :: tl, st, hnd, hnc => by
    have hk0 : ¬ k0 = "count" := by
      intro h
      subst h
      simp [sget] at hnc
    have hnc2 : sget tl "count" = none := by
      simpa [sget, hk0] using hnc
    rw [List.map_cons, List.nodup_cons] at hnd
    have hk0tl : k0 ∉ tl.map Prod.fst := hnd.1
    obtain ⟨v2, happ, hcnt, hrest⟩ :=
      applyUpd_nocount tl (sset st k0 v0) hnd.2 hnc2
    refine ⟨v2, ?_, ?_, ?_⟩
    · simpa [applyUpd, hk0] using happ
    · rw [hcnt, sget_sset]
      simp [hk0]
    · intro k hk
      rcases eq_or_ne k0 k with rfl | hne
      · rw [hrest k0 hk, sget_eq_none_of_not_mem tl k0 hk0tl]
        simp [oFirst, sget, sget_sset]
      · rw [hrest k hk, sget_sset]
        simp [sget, hne, oFirst]

/-- Channel application of an update dict with unique keys that writes
an int to the count channel over an int-valued prior count: it
succeeds, the resulting count is the sum (the operator.add reducer),
and every other key gets the updated value when the dict has one, the
prior value otherwise. -/
theorem applyUpd_count_spec : ∀ (upd st : SDict) (a b : Int),
    (upd.map Prod.fst).Nodup →
    sget st "count" = some (Value.i a) →
    sget upd "count" = some (Value.i b) →
    ∃ v2, applyUpd st upd = some v2 ∧
      sget v2 "count" = some (Value.i (a + b)) ∧
      ∀ k, k ≠ "count" → sget v2 k = oFirst (sget upd k) (sget st k)
  | [], _, a, b, _, _, hupd => by simp [sget] at hupd
  | (k0, v0) :: tl, st, a, b, hnd, hst, hupd => by
    rw [List.map_cons, List.nodup_cons] at hnd
    by_cases hk0 : k0 = "count"
    · subst hk0
      have hv0 : v0 = Value.i b := by simpa [sget] using hupd
      subst hv0
      have hcnt_tl : sget tl "count" = none :=
        sget_eq_none_of_not_mem tl _ hnd.1
      obtain ⟨v2, happ, hcnt, hrest⟩ :=
        applyUpd_nocount tl (sset st "count" (Value.i (a + b))) hnd.2 hcnt_tl
      refine ⟨v2, ?_, ?_, ?_⟩
      · simpa [applyUpd, hst] using happ
      · rw [hcnt, sget_sset]
        simp
      · intro k hk
        rw [hrest k hk, sget_sset]
        have : ¬ ("count" = k) := fun h => hk h.symm
        simp [sget, hk, this, oFirst]
    · have hupd2 : sget tl "count" = some (Value.i b) := by
        simpa [sget, hk0] using hupd
      have hst2 : sget (sset st k0 v0) "count" = some (Value.i a) := by
        rw [sget_sset]
        simp [hk0, hst]
      have hk0tl : k0 ∉ tl.map Prod.fst := hnd.1
      obtain ⟨v2, happ, hcnt, hrest⟩ :=
        applyUpd_count_spec tl (sset st k0 v0) a b hnd.2 hst2 hupd2
      refine ⟨v2, ?_, ?_, ?_⟩
      · simpa [applyUpd, hk0] using happ
      · exact hcnt
      · intro k hk
        rcases eq_or_ne k0 k with rfl | hne
        · rw [hrest k0 hk, sget_eq_none_of_not_mem tl k0 hk0tl]
          simp [oFirst, sget, sget_sset]
        · rw [hrest k hk, sget_sset]
          simp [sget, hne, oFirst]

set_option maxHeartbeats 1000000 in
/-- C2 amended: each successful engine step strictly increases count,
but not uniformly by 1: a planner step adds exactly 1 (the node writes
the literal 1 into the adding channel), while a drafter or finalizer
step writes the prior count plus one into the adding channel, leaving
twice the prior count plus one. -/
theorem count_step_characterization (gen : Option String) (docs : List Doc)
    (t : GThread) (cp : Checkpoint) (rest : List Checkpoint)
    (hh : t.hist = cp :: rest) (c r : Int)
    (hc : sget cp.vals "count" = some (Value.i c)) (h0 : 0 ≤ c)
    (hr : sget cp.vals "revision_number" = some (Value.i r))
    (t2 : GThread) (node : String)
    (hstep : invokeStep gen docs t = some (t2, node)) :
    sget (latestVals t2) "count"
        = some (Value.i (if node = "planner" then c + 1 else 2 * c + 1)) ∧
    c < (if node = "planner" then c + 1 else 2 * c + 1) := by
  rcases hn : cp.next with _ | nd
  · simp only [invokeStep, hh, hn] at hstep
    exact Option.noConfusion hstep
  · simp only [invokeStep, hh, hn] at hstep
    by_cases h1 : nd = "planner"
    · subst h1
      rcases gen with _ | g
      · simp [runNode, plan_node] at hstep
      · simp [runNode, plan_node, applyUpd, sget_sset, hc, hr, sget, sgetD] at hstep
        obtain ⟨h2, h3⟩ := hstep
        subst h3
        subst h2
        refine ⟨?_, ?_⟩
        · rw [if_pos rfl]
          simp [latestVals, sget_sset, hc]
        · rw [if_pos rfl]
          omega
    · by_cases h2 : nd = "drafter"
      · subst h2
        rcases gen with _ | g
        · simp [runNode, draft_node, sgetInt, hc, hr, applyUpd, sget_sset, sget, sgetD] at hstep
          obtain ⟨h3, h4⟩ := hstep
          subst h4
          subst h3
          refine ⟨?_, ?_⟩
          · rw [if_neg (by decide), show 2 * c + 1 = c + (c + 1) by omega]
            simp [latestVals, sget_sset]
          · rw [if_neg (by decide)]
            omega
        · simp [runNode, draft_node, sgetInt, hc, hr, applyUpd, sget_sset, sget, sgetD] at hstep
          obtain ⟨h3, h4⟩ := hstep
          subst h4
          subst h3
          refine ⟨?_, ?_⟩
          · rw [if_neg (by decide), show 2 * c + 1 = c + (c + 1) by omega]
            simp [latestVals, sget_sset]
          · rw [if_neg (by decide)]
            omega
      · by_cases h3 : nd = "finalizer"
        · subst h3
          simp [runNode, finalize_node, sgetInt, hc, hr, applyUpd, sget_sset, sget, sgetD] at hstep
          obtain ⟨h4, h5⟩ := hstep
          subst h5
          subst h4
          refine ⟨?_, ?_⟩
          · rw [if_neg (by decide), show 2 * c + 1 = c + (c + 1) by omega]
            simp [latestVals, sget_sset]
          · rw [if_neg (by decide)]
            omega
        · simp [runNode, h1, h2, h3] at hstep

/-- Witness for count_step_characterization at the concrete planner
step of a fresh thread. -/
theorem count_step_characterization_witness :
    sget (latestVals cexT1) "count"
        = some (Value.i (if "planner" = "planner" then 0 + 1 else 2 * 0 + 1)) ∧
    (0 : Int) < (if "planner" = "planner" then 0 + 1 else 2 * 0 + 1) :=
  count_step_characterization (some "x") [] (startThread "t") cexCp0 [] rfl 0 0 rfl
    (by decide) rfl cexT1 "planner" rfl

set_option maxHeartbeats 1000000 in
/-- C3: every stage execution on a well-typed state returns an update
that, applied through the channels, leaves all nine state fields
present, never decreases count, and changes the revision number only
when the drafter executes — planner and finalizer pass it through
unchanged. -/
theorem stage_invariants (gen : Option String) (docs : List Doc)
    (st : SDict) (c r : Int)
    (hc : sget st "count" = some (Value.i c)) (h0 : 0 ≤ c)
    (hr : sget st "revision_number" = some (Value.i r)) :
    ∀ node, node ∈ ["planner", "drafter", "finalizer"] →
      ∀ v2, stageResult node gen docs st = some v2 →
        (∀ k, k ∈ required_keys → (sget v2 k).isSome) ∧
        (∃ c2 : Int, sget v2 "count" = some (Value.i c2) ∧ c ≤ c2) ∧
        (node ≠ "drafter" → sget v2 "revision_number" = some (Value.i r)) ∧
        (node = "drafter" → sget v2 "revision_number" = some (Value.i (r + 1))) := by
  intro node hnode v2 hv2
  fin_cases hnode
  · rcases gen with _ | g
    · simp [stageResult, runNode, plan_node] at hv2
    · simp [stageResult, runNode, plan_node, applyUpd, sget_sset, hc, hr, sget, sgetD] at hv2
      subst hv2
      refine ⟨?_, ⟨c + 1, ?_, by omega⟩, ?_, ?_⟩
      · intro k hk
        simp only [required_keys] at hk
        fin_cases hk <;> simp [sget_sset]
      · simp [sget_sset]
      · intro _
        simp [sget_sset, hr]
      · intro h
        exact absurd h (by decide)
  · rcases gen with _ | g
    · simp [stageResult, runNode, draft_node, sgetInt, hc, hr, applyUpd, sget_sset,
        sget, sgetD] at hv2
      subst hv2
      refine ⟨?_, ⟨c + (c + 1), ?_, by omega⟩, ?_, ?_⟩
      · intro k hk
        simp only [required_keys] at hk
        fin_cases hk <;> simp [sget_sset]
      · simp [sget_sset]
      · intro h
        exact absurd rfl h
      · intro _
        simp [sget_sset]
    · simp [stageResult, runNode, draft_node, sgetInt, hc, hr, applyUpd, sget_sset,
        sget, sgetD] at hv2
      subst hv2
      refine ⟨?_, ⟨c + (c + 1), ?_, by omega⟩, ?_, ?_⟩
      · intro k hk
        simp only [required_keys] at hk
        fin_cases hk <;> simp [sget_sset]
      · simp [sget_sset]
      · intro h
        exact absurd rfl h
      · intro _
        simp [sget_sset]
  · simp [stageResult, runNode, finalize_node, sgetInt, hc, hr, applyUpd, sget_sset,
      sget, sgetD] at hv2
    subst hv2
    refine ⟨?_, ⟨c + (c + 1), ?_, by omega⟩, ?_, ?_⟩
    · intro k hk
      simp only [required_keys] at hk
      fin_cases hk <;> simp [sget_sset]
    · simp [sget_sset]
    · intro _
      simp [sget_sset, hr]
    · intro h
      exact absurd h (by decide)

/-- Witness for stage_invariants: the drafter stage on the fresh
initial state. -/
theorem stage_invariants_witness :
    stageResult "drafter" (some "x") [] (initConfig "t") = some cexDraftState ∧
    (∀ k, k ∈ required_keys → (sget cexDraftState k).isSome) ∧
    (∃ c2 : Int, sget cexDraftState "count" = some (Value.i c2) ∧ (0 : Int) ≤ c2) ∧
    ("drafter" ≠ "drafter" → sget cexDraftState "revision_number" = some (Value.i 0)) ∧
    ("drafter" = "drafter" → sget cexDraftState "revision_number" = some (Value.i (0 + 1))) :=
  ⟨rfl, stage_invariants (some "x") [] (initConfig "t") 0 0 rfl (by decide) rfl
    "drafter" (by decide) cexDraftState rfl⟩

set_option maxHeartbeats 1000000 in
/-- C10: a drafter execution whose generation call raises still returns
a complete state through the except branch — the draft is the fixed
placeholder text, the revision number and count advance exactly as on a
successful execution — so the step does not reach the engine-level
error path and the routing predicate treats the result like any drafter
step. -/
theorem draft_failure_consumes_revision (docs : List Doc) (st : SDict) (c r : Int)
    (hc : sget st "count" = some (Value.i c))
    (hr : sget st "revision_number" = some (Value.i r)) :
    ∃ v2, stageResult "drafter" none docs st = some v2 ∧
      sget v2 "draft" = some (Value.s "Error occurred during content generation.") ∧
      sget v2 "revision_number" = some (Value.i (r + 1)) ∧
      sget v2 "count" = some (Value.i (c + (c + 1))) ∧
      (∀ k, k ∈ required_keys → (sget v2 k).isSome) ∧
      (∀ g v3, stageResult "drafter" (some g) docs st = some v3 →
        sget v3 "revision_number" = sget v2 "revision_number" ∧
        sget v3 "count" = sget v2 "count") ∧
      nextAfter "drafter" v2 = should_continue v2 := by
  have hex : ∃ v2, stageResult "drafter" none docs st = some v2 := by
    simp [stageResult, runNode, draft_node, sgetInt, hc, hr, applyUpd, sget_sset,
      sget, sgetD]
  obtain ⟨v2, hv2⟩ := hex
  have hv2c := hv2
  simp [stageResult, runNode, draft_node, sgetInt, hc, hr, applyUpd, sget_sset,
    sget, sgetD] at hv2c
  subst hv2c
  refine ⟨_, hv2, ?_, ?_, ?_, ?_, ?_, ?_⟩
  · simp [sget_sset]
  · simp [sget_sset]
  · simp [sget_sset]
  · intro k hk
    simp only [required_keys] at hk
    fin_cases hk <;> simp [sget_sset]
  · intro g v3 hv3
    simp [stageResult, runNode, draft_node, sgetInt, hc, hr, applyUpd, sget_sset,
      sget, sgetD] at hv3
    subst hv3
    constructor <;> simp [sget_sset]
  · simp [nextAfter]

/-- Witness for draft_failure_consumes_revision on the fresh initial
state. -/
theorem draft_failure_consumes_revision_witness :
    ∃ v2, stageResult "drafter" none [] (initConfig "t") = some v2 ∧
      sget v2 "draft" = some (Value.s "Error occurred during content generation.") ∧
      sget v2 "revision_number" = some (Value.i (0 + 1)) ∧
      sget v2 "count" = some (Value.i (0 + (0 + 1))) ∧
      (∀ k, k ∈ required_keys → (sget v2 k).isSome) ∧
      (∀ g v3, stageResult "drafter" (some g) [] (initConfig "t") = some v3 →
        sget v3 "revision_number" = sget v2 "revision_number" ∧
        sget v3 "count" = sget v2 "count") ∧
      nextAfter "drafter" v2 = should_continue v2 :=
  draft_failure_consumes_revision [] (initConfig "t") 0 0 rfl rfl

set_option maxHeartbeats 1000000 in
/-- C5 amended: restoring a checkpoint found in history is
non-destructive — the log (and the user-facing history) grows by
exactly one appended checkpoint and nothing earlier changes — and the
appended WorkflowState equals the restored one on every field except
count, which becomes the sum of the latest and the restored counts
because the write goes through the operator.add channel. -/
theorem restore_appends_checkpoint (t : GThread) (ts : Nat) (cp : Checkpoint)
    (hfind : find_config t ts = some cp)
    (latest : Checkpoint) (rest : List Checkpoint) (hh : t.hist = latest :: rest)
    (hs : 0 ≤ latest.step)
    (ln : String) (hln : sget cp.vals "lnode" = some (Value.s ln))
    (hlnOK : ln = "planner" ∨ ln = "drafter" ∨ ln = "finalizer")
    (hnd : (cp.vals.map Prod.fst).Nodup)
    (la rc : Int) (hla : sget latest.vals "count" = some (Value.i la))
    (hrc : sget cp.vals "count" = some (Value.i rc)) :
    ∃ t2 outp, copy_state t (some ts) = some (t2, outp) ∧
      t2.hist.length = t.hist.length + 1 ∧
      t2.hist.tail = t.hist ∧
      (listHistory t2).length = (listHistory t).length + 1 ∧
      sget (latestVals t2) "count" = some (Value.i (la + rc)) ∧
      (∀ k v, k ≠ "count" → sget cp.vals k = some v →
        sget (latestVals t2) k = some v) := by
  obtain ⟨v2, happ, hcnt, hrest⟩ := applyUpd_count_spec cp.vals latest.vals la rc hnd hla hrc
  have hupd : update_state t cp.vals ln = some
      { hist := ⟨t.nextCid, latest.step + 1, v2, nextAfter ln v2⟩ :: t.hist,
        nextCid := t.nextCid + 1 } := by
    simp [update_state, hlnOK, hh, happ]
  have hcs : copy_state t (some ts) = some
      ({ hist := ⟨t.nextCid, latest.step + 1, v2, nextAfter ln v2⟩ :: t.hist,
         nextCid := t.nextCid + 1 },
       CopyOut.restored (sgetD v2 "lnode" (Value.s "")) (nextAfter ln v2) t.nextCid
         (sgetD v2 "revision_number" (Value.i 0)) (sgetD v2 "count" (Value.i 0))) := by
    simp only [copy_state, hfind, hln, hupd, hh]
  refine ⟨_, _, hcs, by simp, by simp, ?_, by simp [latestVals, hcnt], ?_⟩
  · have hpos : (1 : Int) ≤ latest.step + 1 := by omega
    simp [listHistory, List.filter_cons, hpos]
  · intro k v hk hkv
    have h := hrest k hk
    rw [hkv] at h
    simpa [latestVals, oFirst] using h

/-- Witness for restore_appends_checkpoint: the concrete two-step
thread restored to its planner checkpoint. -/
theorem restore_appends_checkpoint_witness :
    ∃ t2 outp, copy_state cexT2 (some 1) = some (t2, outp) ∧
      t2.hist.length = cexT2.hist.length + 1 ∧
      t2.hist.tail = cexT2.hist ∧
      (listHistory t2).length = (listHistory cexT2).length + 1 ∧
      sget (latestVals t2) "count" = some (Value.i (3 + 1)) ∧
      (∀ k v, k ≠ "count" → sget cexCp1.vals k = some v →
        sget (latestVals t2) k = some v) :=
  restore_appends_checkpoint cexT2 1 cexCp1 rfl cexCp2 [cexCp1, cexCp0] rfl
    (by decide) "planner" rfl (Or.inl rfl) (by decide) 3 1 rfl rfl

/-- Backfill of a key that is already present is the identity. -/
theorem backfillKey_of_some (cur acc : SDict) (rk : String) (v : Value)
    (h : sget acc rk = some v) : backfillKey cur acc rk = acc := by
  simp [backfillKey, h]

/-- The backfill pass of modify_state is the identity on a dict that
already has every required key. -/
theorem backfill_eq_self (cur acc : SDict)
    (h : ∀ k, k ∈ required_keys → (sget acc k).isSome) :
    required_keys.foldl (backfillKey cur) acc = acc := by
  obtain ⟨v1, h1⟩ := Option.isSome_iff_exists.mp (h "task" (by simp [required_keys]))
  obtain ⟨v2, h2⟩ := Option.isSome_iff_exists.mp (h "plan" (by simp [required_keys]))
  obtain ⟨v3, h3⟩ := Option.isSome_iff_exists.mp (h "draft" (by simp [required_keys]))
  obtain ⟨v4, h4⟩ := Option.isSome_iff_exists.mp (h "critique" (by simp [required_keys]))
  obtain ⟨v5, h5⟩ := Option.isSome_iff_exists.mp (h "revision_number" (by simp [required_keys]))
  obtain ⟨v6, h6⟩ := Option.isSome_iff_exists.mp (h "max_revisions" (by simp [required_keys]))
  obtain ⟨v7, h7⟩ := Option.isSome_iff_exists.mp (h "count" (by simp [required_keys]))
  obtain ⟨v8, h8⟩ := Option.isSome_iff_exists.mp (h "lnode" (by simp [required_keys]))
  obtain ⟨v9, h9⟩ := Option.isSome_iff_exists.mp (h "retrieved_docs" (by simp [required_keys]))
  simp only [required_keys, List.foldl]
  rw [backfillKey_of_some cur acc _ _ h1, backfillKey_of_some cur acc _ _ h2,
    backfillKey_of_some cur acc _ _ h3, backfillKey_of_some cur acc _ _ h4,
    backfillKey_of_some cur acc _ _ h5, backfillKey_of_some cur acc _ _ h6,
    backfillKey_of_some cur acc _ _ h7, backfillKey_of_some cur acc _ _ h8,
    backfillKey_of_some cur acc _ _ h9]

set_option maxHeartbeats 1000000 in
/-- C8 amended: overwriting the plan field as the planner appends a
checkpoint from which ReadField returns exactly the new plan, and every
other field except count keeps its prior value; count is doubled (the
unchanged count value is written back through the operator.add
channel). -/
theorem overwrite_plan_frame (t : GThread) (latest : Checkpoint) (rest : List Checkpoint)
    (hh : t.hist = latest :: rest)
    (hnd : (latest.vals.map Prod.fst).Nodup)
    (hkeys : ∀ k, k ∈ required_keys → (sget latest.vals k).isSome)
    (n : Int) (hcnt : sget latest.vals "count" = some (Value.i n))
    (X : String) :
    get_state_value (modify_state t "plan" "planner" (Value.s X)) "plan"
        = some (Value.s X) ∧
    (modify_state t "plan" "planner" (Value.s X)).hist.length = t.hist.length + 1 ∧
    (modify_state t "plan" "planner" (Value.s X)).hist.tail = t.hist ∧
    sget (latestVals (modify_state t "plan" "planner" (Value.s X))) "count"
        = some (Value.i (n + n)) ∧
    ∀ k, k ≠ "count" → k ≠ "plan" →
      sget (latestVals (modify_state t "plan" "planner" (Value.s X))) k
        = sget latest.vals k := by
  have hplanmem : "plan" ∈ latest.vals.map Prod.fst := by
    obtain ⟨vp, hvp⟩ := Option.isSome_iff_exists.mp (hkeys "plan" (by simp [required_keys]))
    exact mem_keys_of_sget_some _ _ _ hvp
  have hnd2 : ((sset latest.vals "plan" (Value.s X)).map Prod.fst).Nodup := by
    rw [keys_sset_of_mem _ _ _ hplanmem]
    exact hnd
  have hkeys2 : ∀ k, k ∈ required_keys →
      (sget (sset latest.vals "plan" (Value.s X)) k).isSome := by
    intro k hk
    rw [sget_sset]
    by_cases hpk : "plan" = k
    · simp [hpk]
    · simp only [if_neg hpk]
      exact hkeys k hk
  have hfill : required_keys.foldl (backfillKey latest.vals)
      (sset latest.vals "plan" (Value.s X)) = sset latest.vals "plan" (Value.s X) :=
    backfill_eq_self _ _ hkeys2
  have hucnt : sget (sset latest.vals "plan" (Value.s X)) "count" = some (Value.i n) := by
    rw [sget_sset]
    simp [hcnt]
  obtain ⟨v2, happ, hcnt2, hrest⟩ :=
    applyUpd_count_spec (sset latest.vals "plan" (Value.s X)) latest.vals n n hnd2 hcnt hucnt
  have hus : update_state t (sset latest.vals "plan" (Value.s X)) "planner" = some
      { hist := ⟨t.nextCid, latest.step + 1, v2, nextAfter "planner" v2⟩ :: t.hist,
        nextCid := t.nextCid + 1 } := by
    simp [update_state, hh, happ]
  have hms : modify_state t "plan" "planner" (Value.s X) =
      { hist := ⟨t.nextCid, latest.step + 1, v2, nextAfter "planner" v2⟩ :: t.hist,
        nextCid := t.nextCid + 1 } := by
    simp only [modify_state, hh]
    rw [show write_key_map "plan" = "plan" from rfl,
      show write_node_map "planner" = "planner" from rfl, hfill, hus]
    simp [hh]
  have hplan : sget v2 "plan" = some (Value.s X) := by
    have h := hrest "plan" (by decide)
    rw [sget_sset] at h
    simpa [oFirst] using h
  refine ⟨?_, by simp [hms], by simp [hms], by simp [hms, latestVals, hcnt2], ?_⟩
  · simp [get_state_value, hms, read_key_map, hplan]
  · intro k hk1 hk2
    have h := hrest k hk1
    rw [sget_sset] at h
    have : ¬ ("plan" = k) := fun hc => hk2 hc.symm
    rw [if_neg this] at h
    simp only [hms, latestVals]
    rw [h]
    exact oFirst_self _

/-- Witness for overwrite_plan_frame on the concrete one-step thread. -/
theorem overwrite_plan_frame_witness :
    get_state_value (modify_state cexT1 "plan" "planner" (Value.s "X")) "plan"
        = some (Value.s "X") ∧
    (modify_state cexT1 "plan" "planner" (Value.s "X")).hist.length
        = cexT1.hist.length + 1 ∧
    (modify_state cexT1 "plan" "planner" (Value.s "X")).hist.tail = cexT1.hist ∧
    sget (latestVals (modify_state cexT1 "plan" "planner" (Value.s "X"))) "count"
        = some (Value.i (1 + 1)) ∧
    ∀ k, k ≠ "count" → k ≠ "plan" →
      sget (latestVals (modify_state cexT1 "plan" "planner" (Value.s "X"))) k
        = sget cexCp1.vals k :=
  overwrite_plan_frame cexT1 cexCp1 [cexCp0] rfl (by decide) (by decide) 1 rfl "X"

/-- C9: the display state read recovers malformed stored numerics by
coercion — a revision number or count that is absent, None, a list, or
a non-numeric string is reported as 0, and the read never raises (it is
a total function in this model, mirroring the catch-all in the code). -/
theorem get_disp_state_malformed (t : GThread) (cp : Checkpoint) (rest : List Checkpoint)
    (hh : t.hist = cp :: rest)
    (hrev : malformedNum (sget cp.vals "revision_number") = true)
    (hcnt : malformedNum (sget cp.vals "count") = true) :
    (get_disp_state t).rev = 0 ∧ (get_disp_state t).acount = 0 := by
  have key : ∀ v, malformedNum v = true → pyIntCoerce v = 0 := by
    intro v hv
    rcases v with _ | w
    · rfl
    · rcases w with s | m | ds | _
      · simp [malformedNum] at hv
        simp [pyIntCoerce, hv]
      · simp [malformedNum] at hv
      · rfl
      · rfl
  simp only [get_disp_state, hh]
  exact ⟨key _ hrev, key _ hcnt⟩

/-- Witness for get_disp_state_malformed on the concrete malformed
thread. -/
theorem get_disp_state_malformed_witness :
    (get_disp_state cexBad).rev = 0 ∧ (get_disp_state cexBad).acount = 0 :=
  get_disp_state_malformed cexBad
    ⟨5, 3, [("revision_number", Value.s "pending"), ("count", Value.docs []),
      ("lnode", Value.s "drafter")], some "finalizer"⟩ [] rfl (by decide) (by decide)
